import Mathlib

/-!
Shallow embedding of the presentation-exchange protocol manager
(`aries_cloudagent/protocols/present_proof/v1_0/manager.py`) and of the
revocation admin route handlers (`aries_cloudagent/revocation/routes.py`),
with theorems checking the natural-language specification against the code.

Python dicts are modelled as insertion-ordered association lists; external
capabilities (holder, ledger, verifier, responder, storage) are modelled as
environment functions; exceptions are modelled with `Except`; the ledger and
revocation calls a run performs are recorded in explicit traces.
-/

namespace Aries

instance {ε α : Type} [DecidableEq ε] [DecidableEq α] :
    DecidableEq (Except ε α) := fun a b =>
  match a, b with
  | .error e, .error e' =>
      if h : e = e' then .isTrue (by rw [h])
      else .isFalse (by intro hh; cases hh; exact h rfl)
  | .error _, .ok _ => .isFalse (by intro h; cases h)
  | .ok _, .error _ => .isFalse (by intro h; cases h)
  | .ok v, .ok v' =>
      if h : v = v' then .isTrue (by rw [h])
      else .isFalse (by intro hh; cases hh; exact h rfl)

/-- Association-list lookup, modelling Python dict indexing (dicts preserve
insertion order and have unique keys, so first match is the match). -/
def alFind {κ α : Type} [DecidableEq κ] : List (κ × α) → κ → Option α
  | [], _ => none
  | (k, v) :: rest, k' => if k = k' then some v else alFind rest k'

/-- Python `k in d` membership test. -/
def alContains {κ α : Type} [DecidableEq κ] (l : List (κ × α)) (k : κ) : Bool :=
  (alFind l k).isSome

/-- Python dict assignment `d[k] = v`: replace in place when the key exists,
else append at the end (insertion order preserved). -/
def alInsert {κ α : Type} [DecidableEq κ] : List (κ × α) → κ → α → List (κ × α)
  | [], k, v => [(k, v)]
  | (k', v') :: rest, k, v =>
      if k' = k then (k, v) :: rest else (k', v') :: alInsert rest k v

/-- Protocol states of `V10PresentationExchange` (the `STATE_*` constants the
manager assigns). -/
inductive PState
  | proposalSent
  | proposalReceived
  | requestSent
  | requestReceived
  | presentationSent
  | presentationReceived
  | stateVerified
  | presentationAcked
deriving DecidableEq

inductive Initiator
  | self
  | external
deriving DecidableEq

inductive Role
  | prover
  | verifier
deriving DecidableEq

/-- A non-revocation interval dict: either bound may be absent from the dict
(Python key missing). An interval with both keys absent is the empty dict,
which is falsy in Python. -/
structure Timespan where
  fromB : Option Nat
  toB : Option Nat
deriving DecidableEq

/-- Python truthiness of an optional non-revocation dict: `None` and the empty
dict are falsy; a dict with at least one key is truthy. -/
def truthyTimespan : Option Timespan → Bool
  | none => false
  | some t => t.fromB.isSome || t.toB.isSome

/-- One entry of the stored proof request's `requested_attributes`. -/
structure ProofReqAttrSpec where
  name : String
  non_revoked : Option Timespan
deriving DecidableEq

/-- One entry of the stored proof request's `requested_predicates`. -/
structure ProofReqPredSpec where
  non_revoked : Option Timespan
deriving DecidableEq

/-- The indy proof request stored on the exchange record. -/
structure IndyProofRequest where
  requested_attributes : List (String × ProofReqAttrSpec)
  requested_predicates : List (String × ProofReqPredSpec)
  non_revoked : Option Timespan
deriving DecidableEq

/-- A revealed attribute of an incoming presentation
(`requested_proof.revealed_attrs` entry). -/
structure RevealedAttr where
  sub_proof_index : Nat
  raw : String
deriving DecidableEq

/-- One entry of a presentation's `identifiers` list. -/
structure PresIdentifier where
  schema_id : String
  cred_def_id : String
deriving DecidableEq

/-- The indy proof payload of a presentation message. -/
structure IndyProof where
  revealed_attrs : List (String × RevealedAttr)
  identifiers : List PresIdentifier
deriving DecidableEq

/-- One attribute specification of a proposal's presentation preview. -/
structure PreviewAttrSpec where
  cred_def_id : String
  name : String
  value : String
deriving DecidableEq

/-- The `verified` attribute of the record: Python is dynamically typed, so
the field can hold nothing yet, a boolean, or a string. -/
inductive VerifiedField
  | unset
  | boolVal (b : Bool)
  | strVal (s : String)
deriving DecidableEq

/-- The persisted presentation exchange record (`V10PresentationExchange`),
with the serialized proposal modelled by its preview content. -/
structure ExchangeRecord where
  connection_id : Option String
  thread_id : String
  initiator : Initiator
  role : Role
  state : PState
  presentation_proposal_dict : Option (List PreviewAttrSpec)
  presentation_request : IndyProofRequest
  presentation : Option IndyProof
  verified : VerifiedField
  auto_present : Option Bool
deriving DecidableEq

/-- Python runtime exceptions the manager code can raise on its own. -/
inductive PyErr
  | keyErr
  | typeErr
  | nameErr
  | indexErr
deriving DecidableEq

/-- Errors of `receive_presentation`: a Python runtime error, or the explicit
`PresentationManagerError` raised on a proposal/presentation mismatch. -/
inductive RecvErr
  | pyErr (e : PyErr)
  | pmErr (name value : String)
deriving DecidableEq

/-- Modelled from the spec: `PresentationPreview.has_attr_spec` lives in the
proposal preview model module, which is not under src/. Per the spec (§4.4)
it checks that the stored proposal preview "contains an attribute
specification with that exact `(cred_def_id, name, value)` triple". -/
def has_attr_spec (preview : List PreviewAttrSpec) (cdi nm vl : String) : Bool :=
  preview.any fun s => s.cred_def_id == cdi && s.name == nm && s.value == vl

/-- The bait-and-switch loop of `receive_presentation` (manager.py 413-429):
for each revealed attribute, its `name` is looked up in the stored proof
request, its `cred_def_id` in the identifier at its `sub_proof_index`, and
the proposal preview must contain that `(cred_def_id, name, value)` triple;
the first mismatch raises `PresentationManagerError`. -/
def checkRevealed (proof_req : IndyProofRequest) (pres : IndyProof)
    (preview : List PreviewAttrSpec) :
    List (String × RevealedAttr) → Except RecvErr Unit
  | [] => .ok ()
  | (reft, attr_spec) :: rest =>
    match alFind proof_req.requested_attributes reft with
    | none => .error (.pyErr .keyErr)
    | some req_spec =>
      match pres.identifiers.get? attr_spec.sub_proof_index with
      | none => .error (.pyErr .indexErr)
      | some ident =>
        cond (has_attr_spec preview ident.cred_def_id req_spec.name attr_spec.raw)
          (checkRevealed proof_req pres preview rest)
          (.error (.pmErr req_spec.name attr_spec.raw))

/-- The record as saved on the success path of `receive_presentation`:
presentation stored, state set to PRESENTATION_RECEIVED. -/
def recvSuccess (rec : ExchangeRecord) (presentation : IndyProof) :
    ExchangeRecord :=
  { rec with
    presentation := some presentation
    state := .presentationReceived }

/-- The guarded anti-substitution check of `receive_presentation`
(manager.py 407-429): it runs only when a proposal is stored. -/
def recvCheck (rec : ExchangeRecord) (presentation : IndyProof) :
    Except RecvErr Unit :=
  match rec.presentation_proposal_dict with
  | some preview =>
      checkRevealed rec.presentation_request presentation preview
        presentation.revealed_attrs
  | none => .ok ()

/-- `receive_presentation` (manager.py 384-440), given the exchange record
already retrieved by thread id (retrieval belongs to the storage
collaborator). Returns the list of save events performed and the outcome:
the anti-substitution check runs before any save, so an error leaves the
save list empty. -/
def receive_presentation (rec : ExchangeRecord) (presentation : IndyProof) :
    List ExchangeRecord × Except RecvErr ExchangeRecord :=
  match recvCheck rec presentation with
  | .error e => ([], .error e)
  | .ok _ =>
      ([recvSuccess rec presentation], .ok (recvSuccess rec presentation))

/-- Whether one revealed attribute passes the anti-substitution check: its
referent resolves in the stored request, its sub_proof_index resolves in the
identifier list, and the preview holds the resulting triple. -/
def revealedMatches (proof_req : IndyProofRequest) (pres : IndyProof)
    (preview : List PreviewAttrSpec) (p : String × RevealedAttr) : Bool :=
  match alFind proof_req.requested_attributes p.1,
        pres.identifiers.get? p.2.sub_proof_index with
  | some req_spec, some ident =>
      has_attr_spec preview ident.cred_def_id req_spec.name p.2.raw
  | _, _ => false

theorem checkRevealed_of_all (proof_req : IndyProofRequest) (pres : IndyProof)
    (preview : List PreviewAttrSpec) (l : List (String × RevealedAttr))
    (h : l.all (revealedMatches proof_req pres preview) = true) :
    checkRevealed proof_req pres preview l = .ok () := by
  induction l with
  | nil => rfl
  | cons p rest ih =>
    simp only [List.all_cons, Bool.and_eq_true] at h
    obtain ⟨hp, hrest⟩ := h
    unfold revealedMatches at hp
    unfold checkRevealed
    cases hfind : alFind proof_req.requested_attributes p.1 with
    | none => rw [hfind] at hp; simp at hp
    | some req_spec =>
      cases hident : pres.identifiers.get? p.2.sub_proof_index with
      | none => rw [hfind, hident] at hp; simp at hp
      | some ident =>
        rw [hfind, hident] at hp
        have hp' : has_attr_spec preview ident.cred_def_id req_spec.name
            p.2.raw = true := hp
        show cond (has_attr_spec preview ident.cred_def_id req_spec.name p.2.raw)
            (checkRevealed proof_req pres preview rest)
            (Except.error (RecvErr.pmErr req_spec.name p.2.raw)) = Except.ok ()
        rw [hp']
        exact ih hrest

theorem checkRevealed_of_not_all (proof_req : IndyProofRequest)
    (pres : IndyProof) (preview : List PreviewAttrSpec)
    (l : List (String × RevealedAttr))
    (hwf : ∀ p ∈ l,
      (alFind proof_req.requested_attributes p.1).isSome = true ∧
      p.2.sub_proof_index < pres.identifiers.length)
    (h : l.all (revealedMatches proof_req pres preview) = false) :
    ∃ nm vl, checkRevealed proof_req pres preview l = .error (.pmErr nm vl) := by
  induction l with
  | nil => simp at h
  | cons p rest ih =>
    have hwfp := hwf p (List.mem_cons_self p rest)
    obtain ⟨hsome, hlt⟩ := hwfp
    cases hfind : alFind proof_req.requested_attributes p.1 with
    | none => rw [hfind] at hsome; simp at hsome
    | some req_spec =>
      cases hident : pres.identifiers.get? p.2.sub_proof_index with
      | none =>
        have := List.get?_eq_get (l := pres.identifiers) hlt
        rw [hident] at this
        exact absurd this (by simp)
      | some ident =>
        unfold checkRevealed
        rw [hfind, hident]
        have hmval : revealedMatches proof_req pres preview p =
            has_attr_spec preview ident.cred_def_id req_spec.name p.2.raw := by
          unfold revealedMatches
          rw [hfind, hident]
        by_cases hmatch :
            has_attr_spec preview ident.cred_def_id req_spec.name p.2.raw = true
        · have hrfalse : rest.all (revealedMatches proof_req pres preview) = false := by
            rcases Bool.eq_false_or_eq_true
                (rest.all (revealedMatches proof_req pres preview)) with hr | hr
            · exfalso
              rw [List.all_cons, hmval, hmatch, hr] at h
              simp at h
            · exact hr
          obtain ⟨nm, vl, herr⟩ :=
            ih (fun q hq => hwf q (List.mem_cons_of_mem p hq)) hrfalse
          refine ⟨nm, vl, ?_⟩
          show cond (has_attr_spec preview ident.cred_def_id req_spec.name p.2.raw)
              (checkRevealed proof_req pres preview rest)
              (Except.error (RecvErr.pmErr req_spec.name p.2.raw)) =
            Except.error (RecvErr.pmErr nm vl)
          rw [hmatch]
          exact herr
        · rw [Bool.not_eq_true] at hmatch
          refine ⟨req_spec.name, p.2.raw, ?_⟩
          show cond (has_attr_spec preview ident.cred_def_id req_spec.name p.2.raw)
              (checkRevealed proof_req pres preview rest)
              (Except.error (RecvErr.pmErr req_spec.name p.2.raw)) =
            Except.error (RecvErr.pmErr req_spec.name p.2.raw)
          rw [hmatch]
          rfl

/-- C1: when the exchange record holds a stored proposal preview, and every
revealed attribute's referent and sub_proof_index resolve, then: if every
revealed attribute's (cred_def_id, name, value) triple appears in the
preview, `receive_presentation` succeeds, saving the record once with
state = PRESENTATION_RECEIVED; if any revealed attribute lacks a matching
triple, it raises `PresentationManagerError` and performs no save (the
persisted state is unchanged). -/
theorem receive_presentation_anti_substitution
    (rec : ExchangeRecord) (pres : IndyProof) (preview : List PreviewAttrSpec)
    (hprop : rec.presentation_proposal_dict = some preview)
    (hwf : ∀ p ∈ pres.revealed_attrs,
      (alFind rec.presentation_request.requested_attributes p.1).isSome = true ∧
      p.2.sub_proof_index < pres.identifiers.length) :
    (pres.revealed_attrs.all
        (revealedMatches rec.presentation_request pres preview) = true →
      receive_presentation rec pres =
        ([recvSuccess rec pres], .ok (recvSuccess rec pres)) ∧
      (recvSuccess rec pres).state = .presentationReceived) ∧
    (pres.revealed_attrs.all
        (revealedMatches rec.presentation_request pres preview) = false →
      ∃ nm vl, receive_presentation rec pres = ([], .error (.pmErr nm vl))) := by
  constructor
  · intro hall
    have hcheck : recvCheck rec pres = .ok () := by
      unfold recvCheck
      rw [hprop]
      exact checkRevealed_of_all rec.presentation_request pres preview
        pres.revealed_attrs hall
    constructor
    · unfold receive_presentation
      rw [hcheck]
    · rfl
  · intro hnot
    obtain ⟨nm, vl, herr⟩ := checkRevealed_of_not_all rec.presentation_request
      pres preview pres.revealed_attrs hwf hnot
    have hcheck : recvCheck rec pres = .error (.pmErr nm vl) := by
      unfold recvCheck
      rw [hprop]
      exact herr
    refine ⟨nm, vl, ?_⟩
    unfold receive_presentation
    rw [hcheck]

/-- The spec's worked example for C1: preview has (D, age, 21); the incoming
presentation reveals age=21 under identifier D. -/
def previewC1 : List PreviewAttrSpec :=
  [{ cred_def_id := "D", name := "age", value := "21" }]

def reqC1 : IndyProofRequest :=
  { requested_attributes := [("0_age_uuid", { name := "age", non_revoked := none })]
    requested_predicates := []
    non_revoked := none }

def recC1 : ExchangeRecord :=
  { connection_id := some "conn-1"
    thread_id := "thread-1"
    initiator := .external
    role := .verifier
    state := .requestSent
    presentation_proposal_dict := some previewC1
    presentation_request := reqC1
    presentation := none
    verified := .unset
    auto_present := none }

def presC1 : IndyProof :=
  { revealed_attrs := [("0_age_uuid", { sub_proof_index := 0, raw := "21" })]
    identifiers := [{ schema_id := "S", cred_def_id := "D" }] }

theorem receive_presentation_anti_substitution_witness :
    receive_presentation recC1 presC1 =
      ([recvSuccess recC1 presC1], .ok (recvSuccess recC1 presC1)) :=
  ((receive_presentation_anti_substitution recC1 presC1 previewC1 rfl
    (by decide)).1 (by decide)).1

/-- A credential record as returned by `Holder.get_credential`; `rev_reg_id`
is the empty string when the credential carries no revocation registry
(Python None and the empty string are both falsy). -/
structure Credential where
  schema_id : String
  cred_def_id : String
  rev_reg_id : String
  cred_rev_id : String
deriving DecidableEq

/-- One selection of the caller's `requested_credentials` sections. -/
structure CredSelection where
  cred_id : String
deriving DecidableEq

/-- The caller-supplied `requested_credentials` argument (self-attested
attributes play no role in the embedded logic and are omitted). -/
structure RequestedCredentials where
  requested_attributes : List (String × CredSelection)
  requested_predicates : List (String × CredSelection)
deriving DecidableEq

/-- One entry of the `requested_referents` dict built by
`create_presentation` (manager.py 264-280): the credential id, plus the
per-referent `non_revoked` window when the stored proof request declares
one for this referent. -/
structure ReferentInfo where
  cred_id : String
  non_revoked : Option Timespan
deriving DecidableEq

/-- Ledger capability, modelled as total environment functions (the ledger's
own failures are the external collaborator's concern). -/
structure LedgerEnv where
  get_schema : String → String
  get_credential_definition : String → String
  get_revoc_reg_def : String → String
  get_revoc_reg_delta : String → Nat → Nat → String × Nat

/-- The referent-extraction loops of `create_presentation`
(manager.py 264-280), generic over the attribute/predicate section: each
selected referent indexes the same section of the stored proof request
(KeyError when absent) and copies its `non_revoked` window when that key is
present there. -/
def buildRefs (reqWindows : List (String × Option Timespan)) :
    List (String × CredSelection) → List (String × ReferentInfo) →
    Except PyErr (List (String × ReferentInfo))
  | [], acc => .ok acc
  | (reft, sel) :: rest, acc =>
    match alFind reqWindows reft with
    | none => .error .keyErr
    | some w =>
        buildRefs reqWindows rest
          (alInsert acc reft { cred_id := sel.cred_id, non_revoked := w })

def attrWindows (req : IndyProofRequest) : List (String × Option Timespan) :=
  req.requested_attributes.map fun p => (p.1, p.2.non_revoked)

def predWindows (req : IndyProofRequest) : List (String × Option Timespan) :=
  req.requested_predicates.map fun p => (p.1, p.2.non_revoked)

/-- The credential-resolution loop (manager.py 283-286): each distinct
credential id is fetched from the holder once (`if credential_id not in
credentials` guard). -/
def buildCredentials (get_credential : String → Credential)
    (refs : List (String × ReferentInfo)) : List (String × Credential) :=
  refs.foldl
    (fun acc p =>
      if alContains acc p.2.cred_id then acc
      else acc ++ [(p.2.cred_id, get_credential p.2.cred_id)])
    []

/-- Accumulated dicts and ledger-fetch traces of the schema /
credential-definition / revocation-registry resolution loop. -/
structure ResolveState where
  schemas : List (String × String)
  credential_definitions : List (String × String)
  revocation_registries : List (String × String)
  schemaFetches : List String
  credDefFetches : List String
  revRegFetches : List String
deriving DecidableEq

def emptyResolveState : ResolveState := ⟨[], [], [], [], [], []⟩

/-- The schema statement of the resolution loop (manager.py 296-298): fetch
when the id is new. -/
def resolveSchema (ledger : LedgerEnv) (st : ResolveState)
    (credential : Credential) : ResolveState :=
  if alContains st.schemas credential.schema_id then st
  else { st with
    schemas := st.schemas ++
      [(credential.schema_id, ledger.get_schema credential.schema_id)]
    schemaFetches := st.schemaFetches ++ [credential.schema_id] }

/-- The credential-definition statement of the resolution loop
(manager.py 300-303). -/
def resolveCredDef (ledger : LedgerEnv) (st : ResolveState)
    (credential : Credential) : ResolveState :=
  if alContains st.credential_definitions credential.cred_def_id then st
  else { st with
    credential_definitions := st.credential_definitions ++
      [(credential.cred_def_id,
        ledger.get_credential_definition credential.cred_def_id)]
    credDefFetches := st.credDefFetches ++ [credential.cred_def_id] }

/-- The revocation-registry statement of the resolution loop
(manager.py 305-309): only for a truthy `rev_reg_id`, and only when new. -/
def resolveRevReg (ledger : LedgerEnv) (st : ResolveState)
    (credential : Credential) : ResolveState :=
  if credential.rev_reg_id = "" then st
  else if alContains st.revocation_registries credential.rev_reg_id then st
  else { st with
    revocation_registries := st.revocation_registries ++
      [(credential.rev_reg_id, ledger.get_revoc_reg_def credential.rev_reg_id)]
    revRegFetches := st.revRegFetches ++ [credential.rev_reg_id] }

/-- One iteration of the resolution loop (manager.py 294-309): the three
statements in source order. -/
def resolveStep (ledger : LedgerEnv) (st : ResolveState)
    (credential : Credential) : ResolveState :=
  resolveRevReg ledger (resolveCredDef ledger (resolveSchema ledger st credential)
    credential) credential

def resolveAll (ledger : LedgerEnv) (creds : List (String × Credential)) :
    ResolveState :=
  creds.foldl (fun st p => resolveStep ledger st p.2) emptyResolveState

/-- One `(rev_reg_id, credential_id, delta, delta_timestamp)` tuple stored in
`revoc_reg_deltas`. -/
structure DeltaEntry where
  rev_reg_id : String
  cred_id : String
  delta : String
  delta_timestamp : Nat
deriving DecidableEq

/-- The string key of manager.py 331: `rev_reg_id`, `from` and `to` joined
with underscores. -/
def deltaKey (rev_reg_id : String) (f t : Nat) : String :=
  rev_reg_id ++ "_" ++ toString f ++ "_" ++ toString t

/-- Mutable state of the delta-fetch loop: the request-level
`non_revoked_timespan` dict (mutated in place by the defaulting), the
`revoc_reg_deltas` dict, and the trace of delta fetches issued. -/
structure DeltaState where
  non_revoked_timespan : Option Timespan
  revoc_reg_deltas : List (String × DeltaEntry)
  deltaFetches : List (String × Nat × Nat)
deriving DecidableEq

/-- The value of `referented.get("non_revoked", non_revoked_timespan)`
(manager.py 323): the per-referent window when the key is present, else the
current request-level dict. -/
def effectiveWindow (st : DeltaState) (referented : ReferentInfo) :
    Option Timespan :=
  match referented.non_revoked with
  | some w => some w
  | none => st.non_revoked_timespan

/-- The request-level dict after the in-place defaulting of
manager.py 326-329: missing `from` becomes 0, missing `to` becomes the
current time. -/
def defaultedWindow (ts : Timespan) (current_timestamp : Nat) : Timespan :=
  { fromB := some (ts.fromB.getD 0)
    toB := some (ts.toB.getD current_timestamp) }

/-- The defaulting, key computation and guarded delta fetch of
manager.py 326-335 (the bounds used for the key and the fetch are those of
the request-level dict, after defaulting). -/
def deltaFetchStep (ledger : LedgerEnv) (current_timestamp : Nat)
    (st : DeltaState) (credential : Credential) (referented : ReferentInfo)
    (ts : Timespan) : DeltaState :=
  if alContains st.revoc_reg_deltas
      (deltaKey credential.rev_reg_id (ts.fromB.getD 0)
        (ts.toB.getD current_timestamp)) then
    { st with non_revoked_timespan := some (defaultedWindow ts current_timestamp) }
  else
    { non_revoked_timespan := some (defaultedWindow ts current_timestamp)
      revoc_reg_deltas := st.revoc_reg_deltas ++
        [(deltaKey credential.rev_reg_id (ts.fromB.getD 0)
            (ts.toB.getD current_timestamp),
          { rev_reg_id := credential.rev_reg_id
            cred_id := referented.cred_id
            delta := (ledger.get_revoc_reg_delta credential.rev_reg_id
              (ts.fromB.getD 0) (ts.toB.getD current_timestamp)).1
            delta_timestamp := (ledger.get_revoc_reg_delta credential.rev_reg_id
              (ts.fromB.getD 0) (ts.toB.getD current_timestamp)).2 })]
      deltaFetches := st.deltaFetches ++
        [(credential.rev_reg_id, ts.fromB.getD 0,
          ts.toB.getD current_timestamp)] }

/-- One iteration of the delta-fetch loop (manager.py 317-335). The source
decides presence on the per-referent window (falling back to the
request-level one) but then defaults and reads the bounds on the
request-level dict `non_revoked_timespan`, mutating it in place; when that
dict is None, the `"from" not in` membership test raises TypeError. -/
def deltaStep (ledger : LedgerEnv) (credentials : List (String × Credential))
    (current_timestamp : Nat) (st : DeltaState) (referented : ReferentInfo) :
    Except PyErr DeltaState :=
  match alFind credentials referented.cred_id with
  | none => .error .keyErr
  | some credential =>
    if credential.rev_reg_id = "" then .ok st
    else if truthyTimespan (effectiveWindow st referented) then
      match st.non_revoked_timespan with
      | none => .error .typeErr
      | some ts =>
          .ok (deltaFetchStep ledger current_timestamp st credential
            referented ts)
    else .ok st

def deltaLoop (ledger : LedgerEnv) (credentials : List (String × Credential))
    (current_timestamp : Nat) (st : DeltaState) :
    List (String × ReferentInfo) → Except PyErr DeltaState
  | [] => .ok st
  | (_, referented) :: rest =>
    match deltaStep ledger credentials current_timestamp st referented with
    | .error e => .error e
    | .ok st' => deltaLoop ledger credentials current_timestamp st' rest

/-- Environment for revocation-state computation: the registry's local tails
presence check and the (opaque) `create_revocation_state` result. -/
structure RevStateEnv where
  has_local_tail_file : String → Bool
  create_revocation_state : String → String → String → Nat → String

/-- Accumulator of the revocation-state loop: the nested
`revocation_states` dict, the tails retrievals, and the trace of
`create_revocation_state` calls as
`(rev_reg_id, cred_rev_id, delta, delta_timestamp)`. -/
structure StatesAcc where
  revocation_states : List (String × List (Nat × String))
  retrieveTailsCalls : List String
  revStateCalls : List (String × String × String × Nat)
deriving DecidableEq

def emptyStatesAcc : StatesAcc := ⟨[], [], []⟩

/-- Nested-dict assignment `revocation_states[r][ts] = v`, following the
`if r not in revocation_states` guard of manager.py 339-340. -/
def insertState (rs : List (String × List (Nat × String))) (r : String)
    (ts : Nat) (v : String) : List (String × List (Nat × String)) :=
  match alFind rs r with
  | none => rs ++ [(r, [(ts, v)])]
  | some inner => alInsert rs r (alInsert inner ts v)

/-- One iteration of the revocation-state loop (manager.py 338-351). The
`cred_rev_id` passed to `create_revocation_state` is read from the stale
loop variable `credential` left over from the resolution loop of
manager.py 295, i.e. from the last credential iterated there (a NameError
if that loop never ran). -/
def statesStep (env : RevStateEnv)
    (revocation_registries : List (String × String))
    (stale_credential : Option Credential) (acc : StatesAcc)
    (e : DeltaEntry) : Except PyErr StatesAcc :=
  match alFind revocation_registries e.rev_reg_id with
  | none => .error .keyErr
  | some _ =>
    match stale_credential with
    | none => .error .nameErr
    | some credential =>
      let tails :=
        if env.has_local_tail_file e.rev_reg_id then acc.retrieveTailsCalls
        else acc.retrieveTailsCalls ++ [e.rev_reg_id]
      let v := env.create_revocation_state e.rev_reg_id credential.cred_rev_id
        e.delta e.delta_timestamp
      .ok { revocation_states :=
              insertState acc.revocation_states e.rev_reg_id e.delta_timestamp v
            retrieveTailsCalls := tails
            revStateCalls := acc.revStateCalls ++
              [(e.rev_reg_id, credential.cred_rev_id, e.delta,
                e.delta_timestamp)] }

def statesLoop (env : RevStateEnv)
    (revocation_registries : List (String × String))
    (stale_credential : Option Credential) (acc : StatesAcc) :
    List (String × DeltaEntry) → Except PyErr StatesAcc
  | [] => .ok acc
  | (_, e) :: rest =>
    match statesStep env revocation_registries stale_credential acc e with
    | .error er => .error er
    | .ok acc' => statesLoop env revocation_registries stale_credential acc' rest

/-- Environment of one `create_presentation` call: holder, ledger and
revocation capabilities, the current time, and the opaque proof builder
(`holder.create_presentation`). -/
structure CPEnv where
  get_credential : String → Credential
  ledger : LedgerEnv
  revState : RevStateEnv
  current_timestamp : Nat
  create_presentation_proof :
    IndyProofRequest → RequestedCredentials → List (String × String) →
    List (String × String) → List (String × List (Nat × String)) → IndyProof

/-- Everything one `create_presentation` run produced: the intermediate
dicts, the call traces, the final record and the save events. -/
structure CPResult where
  requested_referents : List (String × ReferentInfo)
  credentials : List (String × Credential)
  resolve : ResolveState
  deltas : DeltaState
  states : StatesAcc
  record : ExchangeRecord
  saves : List ExchangeRecord
deriving DecidableEq

/-- The two referent-extraction loops of manager.py 264-280 in sequence:
attributes first, predicates second, filling one `requested_referents`
dict. -/
def cpReferents (rec : ExchangeRecord) (rc : RequestedCredentials) :
    Except PyErr (List (String × ReferentInfo)) :=
  match buildRefs (attrWindows rec.presentation_request)
      rc.requested_attributes [] with
  | .error e => .error e
  | .ok refs1 =>
      buildRefs (predWindows rec.presentation_request)
        rc.requested_predicates refs1

/-- The record saved and result assembled at the end of
`create_presentation` (manager.py 354-382): the proof built by the holder
is stored on the record and the state set to PRESENTATION_SENT. -/
def cpAssemble (env : CPEnv) (rec : ExchangeRecord)
    (rc : RequestedCredentials) (refs : List (String × ReferentInfo))
    (deltas : DeltaState) (states : StatesAcc) : CPResult :=
  { requested_referents := refs
    credentials := buildCredentials env.get_credential refs
    resolve := resolveAll env.ledger (buildCredentials env.get_credential refs)
    deltas := deltas
    states := states
    record := { rec with
      state := .presentationSent
      presentation := some (env.create_presentation_proof
        rec.presentation_request rc
        (resolveAll env.ledger (buildCredentials env.get_credential refs)).schemas
        (resolveAll env.ledger
          (buildCredentials env.get_credential refs)).credential_definitions
        states.revocation_states) }
    saves := [{ rec with
      state := .presentationSent
      presentation := some (env.create_presentation_proof
        rec.presentation_request rc
        (resolveAll env.ledger (buildCredentials env.get_credential refs)).schemas
        (resolveAll env.ledger
          (buildCredentials env.get_credential refs)).credential_definitions
        states.revocation_states) }] }

/-- `create_presentation` (manager.py 218-382): the phase sequencing of the
source - referent extraction, credential resolution, schema /
credential-definition / registry resolution, delta fetching, revocation
states, proof construction, save - returning the final saved record
together with the traces of the ledger and revocation calls performed. -/
def create_presentation (env : CPEnv) (rec : ExchangeRecord)
    (rc : RequestedCredentials) : Except PyErr CPResult :=
  match cpReferents rec rc with
  | .error e => .error e
  | .ok refs =>
    match deltaLoop env.ledger (buildCredentials env.get_credential refs)
        env.current_timestamp
        ⟨rec.presentation_request.non_revoked, [], []⟩ refs with
    | .error e => .error e
    | .ok deltas =>
      match statesLoop env.revState
          (resolveAll env.ledger
            (buildCredentials env.get_credential refs)).revocation_registries
          ((buildCredentials env.get_credential refs).getLast?.map Prod.snd)
          emptyStatesAcc deltas.revoc_reg_deltas with
      | .error e => .error e
      | .ok states => .ok (cpAssemble env rec rc refs deltas states)

/-- The outbound presentation-request message of `create_bound_request`. -/
structure RequestMessage where
  thread_id : String
  proof_request : IndyProofRequest
deriving DecidableEq

/-- Error of `create_bound_request` when no proposal is stored. -/
inductive BoundReqErr
  | protocolErr
deriving DecidableEq

/-- Modelled from the spec: `PresentationProposal.deserialize` and
`indy_proof_request` (invoked at manager.py 136-142) live in the messages
module, not under src/. Per the spec (§4.2, §7) deriving a bound request
fails with `ProtocolError` when no proposal is stored; a stored proposal
yields a concrete proof request, here an opaque function of the preview. -/
def derive_proof_request (deriveF : List PreviewAttrSpec → IndyProofRequest) :
    Option (List PreviewAttrSpec) → Except BoundReqErr IndyProofRequest
  | none => .error .protocolErr
  | some preview => .ok (deriveF preview)

/-- `create_bound_request` (manager.py 113-164): derive the proof request
from the stored proposal, build the threaded request message, set state
REQUEST_SENT, store the request on the record and save. The derivation
precedes the save, so the failure path performs no save. -/
def create_bound_request (deriveF : List PreviewAttrSpec → IndyProofRequest)
    (rec : ExchangeRecord) :
    List ExchangeRecord × Except BoundReqErr (ExchangeRecord × RequestMessage) :=
  match derive_proof_request deriveF rec.presentation_proposal_dict with
  | .error e => ([], .error e)
  | .ok indy_proof_request =>
    let msg : RequestMessage :=
      { thread_id := rec.thread_id, proof_request := indy_proof_request }
    let rec' := { rec with
      thread_id := msg.thread_id
      state := .requestSent
      presentation_request := indy_proof_request }
    ([rec'], .ok (rec', msg))

/-- Verifier capability. -/
structure VerifierEnv where
  verify : IndyProofRequest → IndyProof → List (String × String) →
    List (String × String) → Bool

/-- Python `json.dumps` applied to a boolean. -/
def jsonDumpsBool (b : Bool) : String := cond b "true" "false"

/-- The schema loop of `verify_presentation` (manager.py 474-476): one
ledger fetch per occurrence in `schema_ids` (no membership guard), results
keyed by id. Returns the dict and the fetch trace. -/
def verifySchemas (ledger : LedgerEnv) (ids : List String) :
    List (String × String) × List String :=
  ids.foldl
    (fun acc i => (alInsert acc.1 i (ledger.get_schema i), acc.2 ++ [i]))
    ([], [])

/-- The credential-definition loop of `verify_presentation`
(manager.py 479-483): one ledger fetch per occurrence, no guard. -/
def verifyCredDefs (ledger : LedgerEnv) (ids : List String) :
    List (String × String) × List String :=
  ids.foldl
    (fun acc i =>
      (alInsert acc.1 i (ledger.get_credential_definition i), acc.2 ++ [i]))
    ([], [])

/-- Events of one `verify_presentation` run, in execution order. -/
inductive VEvent
  | schemaFetch (schema_id : String)
  | credDefFetch (cred_def_id : String)
  | save (rec : ExchangeRecord)
  | ack (thread_id : String)
  | warnNoResponder
deriving DecidableEq

/-- The boolean the verifier capability returns for this record. -/
def verifyOutcome (ledger : LedgerEnv) (verifier : VerifierEnv)
    (rec : ExchangeRecord) (indy_proof : IndyProof) : Bool :=
  verifier.verify rec.presentation_request indy_proof
    (verifySchemas ledger (indy_proof.identifiers.map PresIdentifier.schema_id)).1
    (verifyCredDefs ledger
      (indy_proof.identifiers.map PresIdentifier.cred_def_id)).1

/-- The record as saved by `verify_presentation` (manager.py 486-491): the
`verified` attribute is assigned `json.dumps(<verifier result>)` - a
string, not a boolean (the source comments "needs string value") - and the
state is set to VERIFIED. -/
def verifiedRecord (b : Bool) (rec : ExchangeRecord) : ExchangeRecord :=
  { rec with verified := .strVal (jsonDumpsBool b), state := .stateVerified }

/-- `verify_presentation` (manager.py 442-498): resolve every identifier's
schema and credential definition (one ledger call per occurrence), invoke
the verifier, store the `json.dumps` string of its boolean, set state
VERIFIED, save, and only then send the ack (or log a warning when no
responder is configured). Indexing an absent presentation is a TypeError. -/
def verify_presentation (ledger : LedgerEnv) (verifier : VerifierEnv)
    (responderPresent : Bool) (rec : ExchangeRecord) :
    List VEvent × Except PyErr ExchangeRecord :=
  match rec.presentation with
  | none => ([], .error .typeErr)
  | some indy_proof =>
    let s := verifySchemas ledger
      (indy_proof.identifiers.map PresIdentifier.schema_id)
    let c := verifyCredDefs ledger
      (indy_proof.identifiers.map PresIdentifier.cred_def_id)
    let rec' := verifiedRecord (verifyOutcome ledger verifier rec indy_proof) rec
    (s.2.map VEvent.schemaFetch ++ c.2.map VEvent.credDefFetch ++
      [VEvent.save rec'] ++
      cond responderPresent [VEvent.ack rec.thread_id] [VEvent.warnNoResponder],
     .ok rec')

/-- The six operations that transition an existing exchange record (the two
exchange-creating operations start a fresh record instead). -/
inductive TransitionOp
  | receiveRequestOp
  | createPresentationOp
  | createBoundRequestOp
  | receivePresentationOp
  | verifyPresentationOp
  | receivePresentationAckOp
deriving DecidableEq

/-- Expected prior state of each transition operation per the §4.5 state
machine (Prover: PROPOSAL_SENT, REQUEST_RECEIVED, PRESENTATION_SENT;
Verifier: PROPOSAL_RECEIVED, REQUEST_SENT, PRESENTATION_RECEIVED, VERIFIED,
PRESENTATION_ACKED). -/
def opExpectedPre : TransitionOp → PState
  | .receiveRequestOp => .proposalSent
  | .createPresentationOp => .requestReceived
  | .createBoundRequestOp => .proposalReceived
  | .receivePresentationOp => .requestSent
  | .verifyPresentationOp => .presentationReceived
  | .receivePresentationAckOp => .stateVerified

/-- The state each manager operation assigns unconditionally
(manager.py 209, 374, 158, 432, 491, 541). -/
def opPost : TransitionOp → PState
  | .receiveRequestOp => .requestReceived
  | .createPresentationOp => .presentationSent
  | .createBoundRequestOp => .requestSent
  | .receivePresentationOp => .presentationReceived
  | .verifyPresentationOp => .stateVerified
  | .receivePresentationAckOp => .presentationAcked

/-- Position of each state in its role's §4.5 ordering (the prover and
verifier chains use disjoint states, so one ranking covers both). -/
def stateRank : PState → Nat
  | .proposalSent => 0
  | .proposalReceived => 0
  | .requestSent => 1
  | .requestReceived => 1
  | .presentationSent => 2
  | .presentationReceived => 2
  | .stateVerified => 3
  | .presentationAcked => 4

/-- Apply a sequence of transition operations, each valid only from its
expected prior state. -/
def applyOps : PState → List TransitionOp → Option PState
  | s, [] => some s
  | s, op :: rest =>
      if opExpectedPre op = s then applyOps (opPost op) rest else none

/-- Issuer revocation registry record, reduced to the fields the admin
routes touch. -/
structure RegistryRecord where
  cred_def_id : String
  tails_public_uri : Option String
deriving DecidableEq

/-- Environment of the revocation admin routes: whether storage holds a
published credential-definition record for the id, whether
`init_issuer_registry` supports it, and what the revocation lookup
`get_active_issuer_revocation_record` returns (none models
`RevocationNotSupportedError`). -/
structure RoutesEnv where
  publishedCredDef : String → Bool
  initSupported : String → Bool
  activeRecord : String → Option RegistryRecord

/-- Calls into the revocation subsystem a route handler performs. -/
inductive RevOp
  | initRegistry (cred_def_id : String)
  | generateRegistry (cred_def_id : String)
  | getActive (cred_def_id : String)
  | publishDef (cred_def_id : String)
  | publishEntry (cred_def_id : String)
  | saveRecord (cred_def_id : String)
deriving DecidableEq

inductive HttpOutcome
  | ok
  | notFound
  | badRequest
deriving DecidableEq

/-- `revocation_create_registry` (routes.py 49-88): the published
credential-definition storage check precedes any revocation-subsystem
call and raises HTTPNotFound when nothing is found. -/
def revocation_create_registry (env : RoutesEnv) (cred_def_id : String) :
    HttpOutcome × List RevOp :=
  if env.publishedCredDef cred_def_id then
    if env.initSupported cred_def_id then
      (.ok, [.initRegistry cred_def_id, .generateRegistry cred_def_id])
    else (.badRequest, [.initRegistry cred_def_id])
  else (.notFound, [])

/-- `get_current_registry` (routes.py 98-130): same published check first,
then the active-record lookup. -/
def get_current_registry (env : RoutesEnv) (cred_def_id : String) :
    HttpOutcome × List RevOp :=
  if env.publishedCredDef cred_def_id then
    match env.activeRecord cred_def_id with
    | some _ => (.ok, [.getActive cred_def_id])
    | none => (.badRequest, [.getActive cred_def_id])
  else (.notFound, [])

/-- `get_tail_file` (routes.py 147-179): same published check first, then
the active-record lookup and the file response. -/
def get_tail_file (env : RoutesEnv) (cred_def_id : String) :
    HttpOutcome × List RevOp :=
  if env.publishedCredDef cred_def_id then
    match env.activeRecord cred_def_id with
    | some _ => (.ok, [.getActive cred_def_id])
    | none => (.badRequest, [.getActive cred_def_id])
  else (.notFound, [])

/-- `publish_registry` (routes.py 189-223): same published check first,
then lookup and the two publish calls. -/
def publish_registry (env : RoutesEnv) (cred_def_id : String) :
    HttpOutcome × List RevOp :=
  if env.publishedCredDef cred_def_id then
    match env.activeRecord cred_def_id with
    | some _ => (.ok, [.getActive cred_def_id, .publishDef cred_def_id,
        .publishEntry cred_def_id])
    | none => (.badRequest, [.getActive cred_def_id])
  else (.notFound, [])

/-- `update_registry` (routes.py 234-264): no published
credential-definition check at all; the handler goes straight to the
revocation lookup, sets the tails URI and saves. Also returns the record
as saved. -/
def update_registry (env : RoutesEnv) (cred_def_id : String) (uri : String) :
    HttpOutcome × List RevOp × Option RegistryRecord :=
  match env.activeRecord cred_def_id with
  | none => (.badRequest, [.getActive cred_def_id], none)
  | some r =>
      (.ok, [.getActive cred_def_id, .saveRecord cred_def_id],
       some { r with tails_public_uri := some uri })

/-- Concrete ledger environment for the worked examples. -/
def ledgerT : LedgerEnv :=
  { get_schema := fun i => "schema:" ++ i
    get_credential_definition := fun i => "creddef:" ++ i
    get_revoc_reg_def := fun i => "regdef:" ++ i
    get_revoc_reg_delta := fun i f t =>
      ("delta:" ++ i ++ ":" ++ toString f ++ ":" ++ toString t, t) }

/-- Concrete revocation-state environment for the worked examples. -/
def revStateT : RevStateEnv :=
  { has_local_tail_file := fun _ => true
    create_revocation_state := fun r c d t =>
      "state:" ++ r ++ ":" ++ c ++ ":" ++ d ++ ":" ++ toString t }

/-- Concrete opaque proof builder for the worked examples. -/
def proofBuilderT : IndyProofRequest → RequestedCredentials →
    List (String × String) → List (String × String) →
    List (String × List (Nat × String)) → IndyProof :=
  fun _ _ _ _ _ => { revealed_attrs := [], identifiers := [] }

/-- Credential with a revocation registry, for the C2 example. -/
def credC2 : Credential :=
  { schema_id := "S", cred_def_id := "D", rev_reg_id := "R", cred_rev_id := "7" }

def envC2 : CPEnv :=
  { get_credential := fun _ => credC2
    ledger := ledgerT
    revState := revStateT
    current_timestamp := 1000
    create_presentation_proof := proofBuilderT }

/-- Proof request with a per-referent window (5, 10) on the sole referent
and a request-level window (0, 100). -/
def reqC2 : IndyProofRequest :=
  { requested_attributes :=
      [("a1", { name := "age", non_revoked := some ⟨some 5, some 10⟩ })]
    requested_predicates := []
    non_revoked := some ⟨some 0, some 100⟩ }

/-- Same request with no request-level window at all. -/
def reqC2' : IndyProofRequest :=
  { reqC2 with non_revoked := none }

def recC2 : ExchangeRecord :=
  { connection_id := some "conn-2"
    thread_id := "thread-2"
    initiator := .external
    role := .prover
    state := .requestReceived
    presentation_proposal_dict := none
    presentation_request := reqC2
    presentation := none
    verified := .unset
    auto_present := none }

def recC2' : ExchangeRecord :=
  { recC2 with presentation_request := reqC2' }

def rcC2 : RequestedCredentials :=
  { requested_attributes := [("a1", { cred_id := "c1" })]
    requested_predicates := [] }

/-- Two credentials on distinct revocation registries with distinct
credential revocation ids, for the C9 example. -/
def credC9a : Credential :=
  { schema_id := "S1", cred_def_id := "D1", rev_reg_id := "R1", cred_rev_id := "7" }

def credC9b : Credential :=
  { schema_id := "S2", cred_def_id := "D2", rev_reg_id := "R2", cred_rev_id := "9" }

def envC9 : CPEnv :=
  { get_credential := fun i => if i = "c1" then credC9a else credC9b
    ledger := ledgerT
    revState := revStateT
    current_timestamp := 1000
    create_presentation_proof := proofBuilderT }

/-- Request with two attribute referents, no per-referent windows, and the
request-level window (0, 100). -/
def reqC9 : IndyProofRequest :=
  { requested_attributes :=
      [("a1", { name := "age", non_revoked := none }),
       ("a2", { name := "score", non_revoked := none })]
    requested_predicates := []
    non_revoked := some ⟨some 0, some 100⟩ }

def recC9 : ExchangeRecord :=
  { recC2 with presentation_request := reqC9 }

def rcC9 : RequestedCredentials :=
  { requested_attributes :=
      [("a1", { cred_id := "c1" }), ("a2", { cred_id := "c2" })]
    requested_predicates := [] }

/-- Two credentials sharing one revocation registry, for the C5 example. -/
def envC5 : CPEnv :=
  { envC9 with get_credential := fun i =>
      if i = "c1" then credC2
      else { credC9b with rev_reg_id := "R" } }

/-- C2 (code bug, manager.py 323-334): the loop decides presence on the
per-referent window but defaults and reads the fetch bounds on the
request-level dict. With a per-referent window (5, 10) on the sole referent
and a request-level window (0, 100), the single delta fetch is issued with
(0, 100) - not with the per-referent effective window (5, 10); with the
same per-referent window and no request-level dict, the membership test on
None raises TypeError instead of fetching (5, 10). -/
theorem create_presentation_window_bug :
    (create_presentation envC2 recC2 rcC2).map
        (fun r => r.deltas.deltaFetches) = .ok [("R", 0, 100)] ∧
    (create_presentation envC2 recC2 rcC2).map
        (fun r => r.deltas.deltaFetches) ≠ .ok [("R", 5, 10)] ∧
    create_presentation envC2 recC2' rcC2 = .error .typeErr := by
  refine ⟨by decide, by decide, by decide⟩

/-- C3: on a record with no stored proposal, `create_bound_request` fails
with ProtocolError and performs no save (empty save-event list), leaving
the persisted record untouched. -/
theorem create_bound_request_no_proposal
    (deriveF : List PreviewAttrSpec → IndyProofRequest) (rec : ExchangeRecord)
    (h : rec.presentation_proposal_dict = none) :
    create_bound_request deriveF rec = ([], .error .protocolErr) := by
  unfold create_bound_request derive_proof_request
  rw [h]

theorem create_bound_request_no_proposal_witness :
    create_bound_request (fun _ => reqC2) recC2 = ([], .error .protocolErr) :=
  create_bound_request_no_proposal (fun _ => reqC2) recC2 rfl

/-- Verifier environment returning true, for the C4 example. -/
def verifierTrue : VerifierEnv := { verify := fun _ _ _ _ => true }

def presC4 : IndyProof :=
  { revealed_attrs := []
    identifiers := [{ schema_id := "S", cred_def_id := "D" }] }

def recC4 : ExchangeRecord :=
  { recC2 with
    role := .verifier
    state := .presentationReceived
    presentation := some presC4 }

/-- C4 counterexample: the verifier capability returns the boolean true,
but the value `verify_presentation` stores on the record's verified
attribute is the JSON string "true" (`json.dumps` of the boolean), which
is not the boolean value itself. -/
theorem verify_presentation_verified_encoding_counterexample :
    (verify_presentation ledgerT verifierTrue true recC4).2.map
        ExchangeRecord.verified = .ok (.strVal "true") ∧
    (VerifiedField.strVal "true" ≠ VerifiedField.boolVal true) := by
  refine ⟨by decide, by decide⟩

/-- C4 amended: for a record with a stored request and presentation,
`verify_presentation` stores `json.dumps` of the verifier's boolean (the
string "true"/"false") on the verified attribute, sets state VERIFIED, and
with a responder present the event sequence is: the ledger fetches, then
the save of the verified record, then the acknowledgement - the ack
strictly after the save. -/
theorem verify_presentation_stores_json_string
    (ledger : LedgerEnv) (verifier : VerifierEnv) (rec : ExchangeRecord)
    (indy_proof : IndyProof) (hpres : rec.presentation = some indy_proof) :
    verify_presentation ledger verifier true rec =
      ((verifySchemas ledger
          (indy_proof.identifiers.map PresIdentifier.schema_id)).2.map
            VEvent.schemaFetch ++
        (verifyCredDefs ledger
          (indy_proof.identifiers.map PresIdentifier.cred_def_id)).2.map
            VEvent.credDefFetch ++
        [VEvent.save
           (verifiedRecord (verifyOutcome ledger verifier rec indy_proof) rec),
         VEvent.ack rec.thread_id],
       .ok (verifiedRecord (verifyOutcome ledger verifier rec indy_proof) rec)) ∧
    (verifiedRecord (verifyOutcome ledger verifier rec indy_proof) rec).verified
      = .strVal (jsonDumpsBool (verifyOutcome ledger verifier rec indy_proof)) ∧
    (verifiedRecord (verifyOutcome ledger verifier rec indy_proof) rec).state
      = .stateVerified := by
  refine ⟨?_, rfl, rfl⟩
  unfold verify_presentation
  rw [hpres]
  simp [List.append_assoc]

theorem verify_presentation_stores_json_string_witness :
    verify_presentation ledgerT verifierTrue true recC4 =
      ((verifySchemas ledgerT
          (presC4.identifiers.map PresIdentifier.schema_id)).2.map
            VEvent.schemaFetch ++
        (verifyCredDefs ledgerT
          (presC4.identifiers.map PresIdentifier.cred_def_id)).2.map
            VEvent.credDefFetch ++
        [VEvent.save
           (verifiedRecord (verifyOutcome ledgerT verifierTrue recC4 presC4) recC4),
         VEvent.ack recC4.thread_id],
       .ok (verifiedRecord (verifyOutcome ledgerT verifierTrue recC4 presC4) recC4)) ∧
    (verifiedRecord (verifyOutcome ledgerT verifierTrue recC4 presC4) recC4).verified
      = .strVal (jsonDumpsBool (verifyOutcome ledgerT verifierTrue recC4 presC4)) ∧
    (verifiedRecord (verifyOutcome ledgerT verifierTrue recC4 presC4) recC4).state
      = .stateVerified :=
  verify_presentation_stores_json_string ledgerT verifierTrue recC4 presC4 rfl

/-- C10: when storage holds no published credential definition for the id,
the four checked handlers return HTTPNotFound having performed no
revocation-subsystem call; `update_registry` performs no such check and,
whenever the revocation lookup accepts the id, proceeds to set the tails
URI and save the registry record. -/
theorem routes_published_check (env : RoutesEnv) (cdid : String)
    (hnp : env.publishedCredDef cdid = false) :
    revocation_create_registry env cdid = (.notFound, []) ∧
    get_current_registry env cdid = (.notFound, []) ∧
    get_tail_file env cdid = (.notFound, []) ∧
    publish_registry env cdid = (.notFound, []) ∧
    (∀ uri r, env.activeRecord cdid = some r →
      update_registry env cdid uri =
        (.ok, [.getActive cdid, .saveRecord cdid],
         some { r with tails_public_uri := some uri })) := by
  refine ⟨?_, ?_, ?_, ?_, ?_⟩
  · unfold revocation_create_registry; rw [hnp]; rfl
  · unfold get_current_registry; rw [hnp]; rfl
  · unfold get_tail_file; rw [hnp]; rfl
  · unfold publish_registry; rw [hnp]; rfl
  · intro uri r hr
    unfold update_registry
    rw [hr]

/-- Concrete routes environment with no published credential definition and
an accepting revocation lookup. -/
def routesEnvT : RoutesEnv :=
  { publishedCredDef := fun _ => false
    initSupported := fun _ => true
    activeRecord := fun i =>
      some { cred_def_id := i, tails_public_uri := none } }

theorem routes_published_check_witness :
    revocation_create_registry routesEnvT "cd1" = (.notFound, []) ∧
    update_registry routesEnvT "cd1" "https://tails.test/f" =
      (.ok, [.getActive "cd1", .saveRecord "cd1"],
       some { cred_def_id := "cd1",
              tails_public_uri := some "https://tails.test/f" }) :=
  ⟨(routes_published_check routesEnvT "cd1" rfl).1,
   (routes_published_check routesEnvT "cd1" rfl).2.2.2.2
     "https://tails.test/f" { cred_def_id := "cd1", tails_public_uri := none }
     rfl⟩

theorem opPost_rank_gt (op : TransitionOp) :
    stateRank (opExpectedPre op) < stateRank (opPost op) := by
  cases op <;> decide

/-- Inversion of a successful `create_presentation` run: each phase's
output, the final state and the single save event. -/
theorem create_presentation_ok_inv
    (env : CPEnv) (rec : ExchangeRecord) (rc : RequestedCredentials)
    (result : CPResult)
    (hok : create_presentation env rec rc = .ok result) :
    cpReferents rec rc = .ok result.requested_referents ∧
    result.credentials =
      buildCredentials env.get_credential result.requested_referents ∧
    result.resolve = resolveAll env.ledger result.credentials ∧
    deltaLoop env.ledger result.credentials env.current_timestamp
      ⟨rec.presentation_request.non_revoked, [], []⟩
      result.requested_referents = .ok result.deltas ∧
    statesLoop env.revState result.resolve.revocation_registries
      (result.credentials.getLast?.map Prod.snd) emptyStatesAcc
      result.deltas.revoc_reg_deltas = .ok result.states ∧
    result.record.state = .presentationSent ∧
    result.saves = [result.record] := by
  unfold create_presentation at hok
  split at hok
  · cases hok
  · next refs h1 =>
    split at hok
    · cases hok
    · next ds h2 =>
      split at hok
      · cases hok
      · next sts h3 =>
        simp only [Except.ok.injEq] at hok
        subst hok
        exact ⟨h1, rfl, rfl, h2, h3, rfl, rfl⟩

/-- C8: over any sequence of transition operations each applied from its
expected §4.5 prior state, the state rank never decreases (monotonicity);
and the embedded operations indeed assign the modelled post-states
(receive_presentation, verify_presentation, create_presentation shown). -/
theorem state_monotonic :
    (∀ ops s s', applyOps s ops = some s' → stateRank s ≤ stateRank s') ∧
    (∀ rec pres saves rec',
      receive_presentation rec pres = (saves, .ok rec') →
      rec'.state = opPost .receivePresentationOp) ∧
    (∀ b rec, (verifiedRecord b rec).state = opPost .verifyPresentationOp) ∧
    (∀ env rec rc result, create_presentation env rec rc = .ok result →
      result.record.state = opPost .createPresentationOp) := by
  refine ⟨?_, ?_, ?_, ?_⟩
  · intro ops
    induction ops with
    | nil =>
      intro s s' h
      unfold applyOps at h
      simp only [Option.some.injEq] at h
      subst h
      exact le_refl _
    | cons op rest ih =>
      intro s s' h
      unfold applyOps at h
      by_cases hpre : opExpectedPre op = s
      · rw [if_pos hpre] at h
        refine le_trans ?_ (ih (opPost op) s' h)
        rw [← hpre]
        exact le_of_lt (opPost_rank_gt op)
      · rw [if_neg hpre] at h
        cases h
  · intro rec pres saves rec' h
    unfold receive_presentation at h
    cases hc : recvCheck rec pres with
    | error e =>
      rw [hc] at h
      simp only [Prod.mk.injEq] at h
      cases h.2
    | ok u =>
      rw [hc] at h
      simp only [Prod.mk.injEq, Except.ok.injEq] at h
      rw [← h.2]
      rfl
  · intro b rec
    rfl
  · intro env rec rc result hok
    exact (create_presentation_ok_inv env rec rc result hok).2.2.2.2.2.1

theorem state_monotonic_witness :
    applyOps .proposalReceived
      [.createBoundRequestOp, .receivePresentationOp, .verifyPresentationOp,
       .receivePresentationAckOp] = some .presentationAcked ∧
    stateRank .proposalReceived ≤ stateRank .presentationAcked :=
  ⟨by decide,
   state_monotonic.1
     [.createBoundRequestOp, .receivePresentationOp, .verifyPresentationOp,
      .receivePresentationAckOp] .proposalReceived .presentationAcked
     (by decide)⟩

theorem alContains_append {κ α : Type} [DecidableEq κ]
    (l₁ l₂ : List (κ × α)) (k : κ) :
    alContains (l₁ ++ l₂) k = (alContains l₁ k || alContains l₂ k) := by
  induction l₁ with
  | nil => simp [alContains, alFind]
  | cons p rest ih =>
    obtain ⟨k', v⟩ := p
    simp only [alContains, alFind, List.cons_append] at ih ⊢
    by_cases h : k' = k
    · simp [h]
    · simp only [h, if_false]
      exact ih

theorem alContains_false_not_mem {κ α : Type} [DecidableEq κ]
    (l : List (κ × α)) (k : κ) (h : alContains l k = false) :
    k ∉ l.map Prod.fst := by
  induction l with
  | nil => simp
  | cons p rest ih =>
    obtain ⟨k', v⟩ := p
    simp only [alContains, alFind] at h
    by_cases hk : k' = k
    · simp [hk] at h
    · simp only [List.map_cons, List.mem_cons]
      push_neg
      refine ⟨fun hh => hk hh.symm, ih ?_⟩
      simpa [hk, alContains] using h

/-- Invariant of the resolution loop: each fetch trace equals the key list
of its dict, the traces are duplicate-free (dedup by id), and every fetched
registry id is truthy. -/
def ResolveInv (st : ResolveState) : Prop :=
  st.schemaFetches = st.schemas.map Prod.fst ∧
  st.schemaFetches.Nodup ∧
  st.credDefFetches = st.credential_definitions.map Prod.fst ∧
  st.credDefFetches.Nodup ∧
  st.revRegFetches = st.revocation_registries.map Prod.fst ∧
  st.revRegFetches.Nodup ∧
  (∀ r ∈ st.revRegFetches, r ≠ "")

theorem nodup_append_single {α : Type} (l : List α) (a : α)
    (hl : l.Nodup) (ha : a ∉ l) : (l ++ [a]).Nodup := by
  rw [List.nodup_append]
  refine ⟨hl, List.nodup_singleton a, ?_⟩
  intro x hx hxs
  rw [List.mem_singleton] at hxs
  subst hxs
  exact ha hx

theorem resolveSchema_inv (ledger : LedgerEnv) (st : ResolveState)
    (c : Credential) (h : ResolveInv st) :
    ResolveInv (resolveSchema ledger st c) := by
  obtain ⟨h1, h2, h3, h4, h5, h6, h7⟩ := h
  unfold resolveSchema
  by_cases hc : alContains st.schemas c.schema_id = true
  · rw [if_pos hc]; exact ⟨h1, h2, h3, h4, h5, h6, h7⟩
  · rw [Bool.not_eq_true] at hc
    rw [if_neg (by rw [hc]; exact Bool.false_ne_true)]
    refine ⟨?_, ?_, h3, h4, h5, h6, h7⟩
    · simp [List.map_append, h1]
    · refine nodup_append_single _ _ h2 ?_
      rw [h1]
      exact alContains_false_not_mem _ _ hc

theorem resolveCredDef_inv (ledger : LedgerEnv) (st : ResolveState)
    (c : Credential) (h : ResolveInv st) :
    ResolveInv (resolveCredDef ledger st c) := by
  obtain ⟨h1, h2, h3, h4, h5, h6, h7⟩ := h
  unfold resolveCredDef
  by_cases hc : alContains st.credential_definitions c.cred_def_id = true
  · rw [if_pos hc]; exact ⟨h1, h2, h3, h4, h5, h6, h7⟩
  · rw [Bool.not_eq_true] at hc
    rw [if_neg (by rw [hc]; exact Bool.false_ne_true)]
    refine ⟨h1, h2, ?_, ?_, h5, h6, h7⟩
    · simp [List.map_append, h3]
    · refine nodup_append_single _ _ h4 ?_
      rw [h3]
      exact alContains_false_not_mem _ _ hc

theorem resolveRevReg_inv (ledger : LedgerEnv) (st : ResolveState)
    (c : Credential) (h : ResolveInv st) :
    ResolveInv (resolveRevReg ledger st c) := by
  obtain ⟨h1, h2, h3, h4, h5, h6, h7⟩ := h
  unfold resolveRevReg
  by_cases hrev : c.rev_reg_id = ""
  · rw [if_pos hrev]; exact ⟨h1, h2, h3, h4, h5, h6, h7⟩
  · rw [if_neg hrev]
    by_cases hc : alContains st.revocation_registries c.rev_reg_id = true
    · rw [if_pos hc]; exact ⟨h1, h2, h3, h4, h5, h6, h7⟩
    · rw [Bool.not_eq_true] at hc
      rw [if_neg (by rw [hc]; exact Bool.false_ne_true)]
      refine ⟨h1, h2, h3, h4, ?_, ?_, ?_⟩
      · simp [List.map_append, h5]
      · refine nodup_append_single _ _ h6 ?_
        rw [h5]
        exact alContains_false_not_mem _ _ hc
      · intro r hr
        rcases List.mem_append.mp hr with hr' | hr'
        · exact h7 r hr'
        · rw [List.mem_singleton] at hr'
          subst hr'
          exact hrev

theorem resolveStep_inv (ledger : LedgerEnv) (st : ResolveState)
    (c : Credential) (h : ResolveInv st) :
    ResolveInv (resolveStep ledger st c) :=
  resolveRevReg_inv ledger _ c
    (resolveCredDef_inv ledger _ c (resolveSchema_inv ledger st c h))

theorem resolveAll_inv (ledger : LedgerEnv)
    (creds : List (String × Credential)) :
    ResolveInv (resolveAll ledger creds) := by
  unfold resolveAll
  have hgen : ∀ (l : List (String × Credential)) (st : ResolveState),
      ResolveInv st →
      ResolveInv (l.foldl (fun st p => resolveStep ledger st p.2) st) := by
    intro l
    induction l with
    | nil => intro st h; exact h
    | cons p rest ih =>
      intro st h
      exact ih _ (resolveStep_inv ledger st p.2 h)
  exact hgen creds emptyResolveState
    ⟨rfl, List.nodup_nil, rfl, List.nodup_nil, rfl, List.nodup_nil,
     fun r hr => absurd hr (List.not_mem_nil r)⟩

/-- The key strings of a delta-fetch trace. -/
def deltaKeys (l : List (String × Nat × Nat)) : List String :=
  l.map fun p => deltaKey p.1 p.2.1 p.2.2

/-- Invariant of the delta-fetch loop: the trace's keys equal the keys of
the `revoc_reg_deltas` dict, those keys are duplicate-free (dedup by key),
and everything recorded carries a truthy registry id. -/
def DeltaInv (st : DeltaState) : Prop :=
  deltaKeys st.deltaFetches = st.revoc_reg_deltas.map Prod.fst ∧
  (st.revoc_reg_deltas.map Prod.fst).Nodup ∧
  (∀ p ∈ st.deltaFetches, p.1 ≠ "") ∧
  (∀ q ∈ st.revoc_reg_deltas, q.2.rev_reg_id ≠ "")

theorem deltaFetchStep_inv (ledger : LedgerEnv) (now : Nat) (st : DeltaState)
    (credential : Credential) (referented : ReferentInfo) (ts : Timespan)
    (hrev : credential.rev_reg_id ≠ "") (h : DeltaInv st) :
    DeltaInv (deltaFetchStep ledger now st credential referented ts) := by
  obtain ⟨h1, h2, h3, h4⟩ := h
  unfold deltaFetchStep
  by_cases hc : alContains st.revoc_reg_deltas
      (deltaKey credential.rev_reg_id (ts.fromB.getD 0) (ts.toB.getD now)) = true
  · rw [if_pos hc]; exact ⟨h1, h2, h3, h4⟩
  · rw [Bool.not_eq_true] at hc
    rw [if_neg (by rw [hc]; exact Bool.false_ne_true)]
    refine ⟨?_, ?_, ?_, ?_⟩
    · simp only [deltaKeys, List.map_append, List.map_cons, List.map_nil]
      rw [show List.map (fun p => deltaKey p.1 p.2.1 p.2.2)
        st.deltaFetches = deltaKeys st.deltaFetches from rfl, h1]
    · simp only [List.map_append, List.map_cons, List.map_nil]
      refine nodup_append_single _ _ h2 ?_
      exact alContains_false_not_mem _ _ hc
    · intro p hp
      rcases List.mem_append.mp hp with hp' | hp'
      · exact h3 p hp'
      · rw [List.mem_singleton] at hp'
        subst hp'
        exact hrev
    · intro q hq
      rcases List.mem_append.mp hq with hq' | hq'
      · exact h4 q hq'
      · rw [List.mem_singleton] at hq'
        subst hq'
        exact hrev

theorem deltaStep_inv (ledger : LedgerEnv)
    (credentials : List (String × Credential)) (now : Nat) (st : DeltaState)
    (referented : ReferentInfo) (st' : DeltaState)
    (hstep : deltaStep ledger credentials now st referented = .ok st')
    (h : DeltaInv st) : DeltaInv st' := by
  unfold deltaStep at hstep
  split at hstep
  · cases hstep
  · next credential hfind =>
    by_cases hrev : credential.rev_reg_id = ""
    · rw [if_pos hrev] at hstep
      simp only [Except.ok.injEq] at hstep
      subst hstep
      exact h
    · rw [if_neg hrev] at hstep
      by_cases htr : truthyTimespan (effectiveWindow st referented) = true
      · rw [if_pos htr] at hstep
        split at hstep
        · cases hstep
        · next ts hts =>
          simp only [Except.ok.injEq] at hstep
          subst hstep
          obtain ⟨h1, h2, h3, h4⟩ := h
          -- the mutated request-level dict does not change the recorded data
          have := deltaFetchStep_inv ledger now st credential referented ts
            hrev ⟨h1, h2, h3, h4⟩
          exact this
      · rw [if_neg htr] at hstep
        simp only [Except.ok.injEq] at hstep
        subst hstep
        exact h

theorem deltaLoop_inv (ledger : LedgerEnv)
    (credentials : List (String × Credential)) (now : Nat) :
    ∀ (l : List (String × ReferentInfo)) (st st' : DeltaState),
      deltaLoop ledger credentials now st l = .ok st' →
      DeltaInv st → DeltaInv st' := by
  intro l
  induction l with
  | nil =>
    intro st st' h hInv
    unfold deltaLoop at h
    simp only [Except.ok.injEq] at h
    subst h
    exact hInv
  | cons p rest ih =>
    intro st st' h hInv
    obtain ⟨k, referented⟩ := p
    unfold deltaLoop at h
    split at h
    · cases h
    · next st1 hstep =>
      exact ih st1 st' h
        (deltaStep_inv ledger credentials now st referented st1 hstep hInv)

/-- Inversion of one successful revocation-state step: the stale credential
must exist, and exactly one call is appended, with its `cred_rev_id` taken
from that stale credential. -/
theorem statesStep_ok_inv (env : RevStateEnv) (regs : List (String × String))
    (stale : Option Credential) (acc : StatesAcc) (e : DeltaEntry)
    (acc' : StatesAcc) (h : statesStep env regs stale acc e = .ok acc') :
    ∃ c, stale = some c ∧
      acc'.revStateCalls = acc.revStateCalls ++
        [(e.rev_reg_id, c.cred_rev_id, e.delta, e.delta_timestamp)] := by
  unfold statesStep at h
  split at h
  · cases h
  · cases stale with
    | none =>
      have h' : (Except.error PyErr.nameErr : Except PyErr StatesAcc) =
          .ok acc' := h
      cases h'
    | some c =>
      have h' : Except.ok
          ({ revocation_states := insertState acc.revocation_states
               e.rev_reg_id e.delta_timestamp
               (env.create_revocation_state e.rev_reg_id c.cred_rev_id
                 e.delta e.delta_timestamp)
             retrieveTailsCalls :=
               if env.has_local_tail_file e.rev_reg_id then
                 acc.retrieveTailsCalls
               else acc.retrieveTailsCalls ++ [e.rev_reg_id]
             revStateCalls := acc.revStateCalls ++
               [(e.rev_reg_id, c.cred_rev_id, e.delta, e.delta_timestamp)] }
            : StatesAcc) = .ok acc' := h
      injection h' with h''
      subst h''
      exact ⟨c, rfl, rfl⟩

/-- Where each `create_revocation_state` call of the revocation-state loop
gets its data: the registry id from some delta entry of the processed list,
the `cred_rev_id` always from the stale `credential` variable. -/
theorem statesLoop_calls (env : RevStateEnv) (regs : List (String × String))
    (stale : Option Credential) :
    ∀ (l : List (String × DeltaEntry)) (acc acc' : StatesAcc),
      statesLoop env regs stale acc l = .ok acc' →
      ∀ call ∈ acc'.revStateCalls,
        call ∈ acc.revStateCalls ∨
        ∃ c, stale = some c ∧ call.2.1 = c.cred_rev_id ∧
          ∃ q ∈ l, call.1 = q.2.rev_reg_id := by
  intro l
  induction l with
  | nil =>
    intro acc acc' h call hc
    unfold statesLoop at h
    simp only [Except.ok.injEq] at h
    subst h
    exact .inl hc
  | cons p rest ih =>
    intro acc acc' h call hc
    obtain ⟨k, e⟩ := p
    unfold statesLoop at h
    split at h
    · cases h
    · next acc1 hstep =>
      obtain ⟨c, hcs, hcalls⟩ :=
        statesStep_ok_inv env regs stale acc e acc1 hstep
      rcases ih acc1 acc' h call hc with hl | ⟨c', hcs', hcc', q, hq, hqr⟩
      · rw [hcalls] at hl
        rcases List.mem_append.mp hl with hl' | hl'
        · exact .inl hl'
        · rw [List.mem_singleton] at hl'
          subst hl'
          exact .inr ⟨c, hcs, rfl, (k, e), List.mem_cons_self _ _, rfl⟩
      · exact .inr ⟨c', hcs', hcc', q, List.mem_cons_of_mem _ hq, hqr⟩

theorem buildCred_step_mono (g : String → Credential)
    (l : List (String × ReferentInfo)) :
    ∀ (acc : List (String × Credential)) (k : String),
      alContains acc k = true →
      alContains
        (l.foldl (fun acc p =>
          if alContains acc p.2.cred_id then acc
          else acc ++ [(p.2.cred_id, g p.2.cred_id)]) acc) k = true := by
  induction l with
  | nil => intro acc k h; exact h
  | cons p rest ih =>
    intro acc k h
    simp only [List.foldl_cons]
    by_cases hc : alContains acc p.2.cred_id = true
    · rw [if_pos hc]; exact ih acc k h
    · rw [Bool.not_eq_true] at hc
      rw [if_neg (by rw [hc]; exact Bool.false_ne_true)]
      apply ih
      rw [alContains_append, h]
      rfl

/-- Every referent's credential id ends up in the `credentials` dict built
by the resolution of manager.py 283-286. -/
theorem buildCredentials_contains (g : String → Credential)
    (refs : List (String × ReferentInfo)) :
    ∀ q ∈ refs, alContains (buildCredentials g refs) q.2.cred_id = true := by
  unfold buildCredentials
  have hgen : ∀ (l : List (String × ReferentInfo))
      (acc : List (String × Credential)), ∀ q ∈ l,
      alContains
        (l.foldl (fun acc p =>
          if alContains acc p.2.cred_id then acc
          else acc ++ [(p.2.cred_id, g p.2.cred_id)]) acc) q.2.cred_id = true := by
    intro l
    induction l with
    | nil => intro acc q hq; cases hq
    | cons p rest ih =>
      intro acc q hq
      simp only [List.foldl_cons]
      rcases List.mem_cons.mp hq with rfl | hq'
      · have hacc' : alContains
            (if alContains acc q.2.cred_id then acc
             else acc ++ [(q.2.cred_id, g q.2.cred_id)]) q.2.cred_id = true := by
          by_cases hc : alContains acc q.2.cred_id = true
          · rw [if_pos hc]; exact hc
          · rw [Bool.not_eq_true] at hc
            rw [if_neg (by rw [hc]; exact Bool.false_ne_true),
              alContains_append]
            simp [alContains, alFind]
        exact buildCred_step_mono g rest _ _ hacc'
      · exact ih _ q hq'
  exact hgen refs []

/-- A referent with an absent effective window (no per-referent window, no
request-level dict) is skipped: no fetch, no error, no mutation. -/
theorem deltaStep_no_window (ledger : LedgerEnv)
    (credentials : List (String × Credential)) (now : Nat) (st : DeltaState)
    (referented : ReferentInfo)
    (hn : st.non_revoked_timespan = none)
    (hw : referented.non_revoked = none)
    (hfound : (alFind credentials referented.cred_id).isSome = true) :
    deltaStep ledger credentials now st referented = .ok st := by
  unfold deltaStep
  cases hf : alFind credentials referented.cred_id with
  | none => rw [hf] at hfound; cases hfound
  | some credential =>
    show (if credential.rev_reg_id = "" then Except.ok st
      else if truthyTimespan (effectiveWindow st referented) = true then _
      else Except.ok st) = Except.ok st
    by_cases hrev : credential.rev_reg_id = ""
    · rw [if_pos hrev]
    · rw [if_neg hrev]
      have htr : truthyTimespan (effectiveWindow st referented) = false := by
        unfold effectiveWindow
        rw [hw, hn]
        rfl
      rw [if_neg (by rw [htr]; exact Bool.false_ne_true)]

/-- With no request-level window and no per-referent windows, the delta
loop performs nothing: state unchanged, nothing fetched, no error. -/
theorem deltaLoop_no_window (ledger : LedgerEnv)
    (credentials : List (String × Credential)) (now : Nat) :
    ∀ (l : List (String × ReferentInfo)) (st : DeltaState),
      st.non_revoked_timespan = none →
      (∀ q ∈ l, q.2.non_revoked = none) →
      (∀ q ∈ l, (alFind credentials q.2.cred_id).isSome = true) →
      deltaLoop ledger credentials now st l = .ok st := by
  intro l
  induction l with
  | nil => intro st _ _ _; rfl
  | cons p rest ih =>
    intro st hn hw hf
    obtain ⟨k, referented⟩ := p
    unfold deltaLoop
    rw [deltaStep_no_window ledger credentials now st referented hn
      (hw (k, referented) (List.mem_cons_self _ _))
      (hf (k, referented) (List.mem_cons_self _ _))]
    exact ih st hn (fun q hq => hw q (List.mem_cons_of_mem _ hq))
      (fun q hq => hf q (List.mem_cons_of_mem _ hq))

theorem verifySchemas_trace (ledger : LedgerEnv) (ids : List String) :
    (verifySchemas ledger ids).2 = ids := by
  unfold verifySchemas
  have hgen : ∀ (l : List String) (acc : List (String × String) × List String),
      (l.foldl (fun acc i =>
        (alInsert acc.1 i (ledger.get_schema i), acc.2 ++ [i])) acc).2 =
      acc.2 ++ l := by
    intro l
    induction l with
    | nil => intro acc; simp
    | cons i rest ih =>
      intro acc
      simp only [List.foldl_cons, ih, List.append_assoc, List.singleton_append]
  simpa using hgen ids ([], [])

theorem verifyCredDefs_trace (ledger : LedgerEnv) (ids : List String) :
    (verifyCredDefs ledger ids).2 = ids := by
  unfold verifyCredDefs
  have hgen : ∀ (l : List String) (acc : List (String × String) × List String),
      (l.foldl (fun acc i =>
        (alInsert acc.1 i (ledger.get_credential_definition i),
         acc.2 ++ [i])) acc).2 = acc.2 ++ l := by
    intro l
    induction l with
    | nil => intro acc; simp
    | cons i rest ih =>
      intro acc
      simp only [List.foldl_cons, ih, List.append_assoc, List.singleton_append]
  simpa using hgen ids ([], [])

/-- Fallback extraction of a successful run's result (the fallback value is
never used by the witnesses, whose runs succeed). -/
def cpResultOrEmpty : Except PyErr CPResult → CPResult
  | .ok r => r
  | .error _ =>
      { requested_referents := []
        credentials := []
        resolve := emptyResolveState
        deltas := { non_revoked_timespan := none, revoc_reg_deltas := [],
                    deltaFetches := [] }
        states := emptyStatesAcc
        record := recC2
        saves := [] }

def resC5 : CPResult := cpResultOrEmpty (create_presentation envC5 recC9 rcC9)

def resC9 : CPResult := cpResultOrEmpty (create_presentation envC9 recC9 rcC9)

/-- C5: within one `create_presentation` call, delta fetches are
deduplicated by the (registry, from, to) key: in every run the key list of
the issued fetches is duplicate-free, so any referents sharing a key
trigger at most one fetch; and in the concrete run with two referents whose
credentials share registry R under window (0, 100), exactly one fetch is
issued for that shared key. -/
theorem create_presentation_delta_dedup :
    (∀ env rec rc result, create_presentation env rec rc = .ok result →
      (deltaKeys result.deltas.deltaFetches).Nodup) ∧
    (create_presentation envC5 recC9 rcC9).map
        (fun r => r.deltas.deltaFetches) = .ok [("R", 0, 100)] := by
  constructor
  · intro env rec rc result hok
    obtain ⟨-, -, -, h2, -, -, -⟩ :=
      create_presentation_ok_inv env rec rc result hok
    have hInv := deltaLoop_inv env.ledger result.credentials
      env.current_timestamp result.requested_referents
      ⟨rec.presentation_request.non_revoked, [], []⟩ result.deltas h2
      ⟨rfl, List.nodup_nil, fun p hp => absurd hp (List.not_mem_nil p),
       fun q hq => absurd hq (List.not_mem_nil q)⟩
    rw [hInv.1]
    exact hInv.2.1
  · decide

theorem create_presentation_delta_dedup_witness :
    (deltaKeys resC5.deltas.deltaFetches).Nodup :=
  create_presentation_delta_dedup.1 envC5 recC9 rcC9 resC5 (by decide)

/-- C9: every `create_revocation_state` call of a run passes the
cred_rev_id of the last credential iterated by the resolution loop (the
stale loop variable), not necessarily that of the credential whose
(registry, window) key produced the delta; concretely, with credentials c1
(registry R1, cred_rev_id 7) and c2 (registry R2, cred_rev_id 9) resolved
in that order, both revocation states are computed with cred_rev_id 9, so
R1's state uses c2's cred_rev_id instead of c1's 7. -/
theorem create_presentation_stale_cred_rev_id :
    (∀ env rec rc result, create_presentation env rec rc = .ok result →
      ∀ call ∈ result.states.revStateCalls,
        ∃ p, result.credentials.getLast? = some p ∧
          call.2.1 = p.2.cred_rev_id) ∧
    ((create_presentation envC9 recC9 rcC9).map
        (fun r => r.states.revStateCalls.map fun c => (c.1, c.2.1)) =
      .ok [("R1", "9"), ("R2", "9")] ∧
     envC9.get_credential "c1" = credC9a ∧
     credC9a.rev_reg_id = "R1" ∧ credC9a.cred_rev_id = "7") := by
  constructor
  · intro env rec rc result hok call hcall
    obtain ⟨-, -, -, -, h3, -, -⟩ :=
      create_presentation_ok_inv env rec rc result hok
    rcases statesLoop_calls env.revState result.resolve.revocation_registries
      (result.credentials.getLast?.map Prod.snd)
      result.deltas.revoc_reg_deltas emptyStatesAcc result.states h3 call hcall
      with hmem | ⟨c, hcs, hcc, -, -, -⟩
    · exact absurd hmem (List.not_mem_nil call)
    · rcases Option.map_eq_some'.mp hcs with ⟨p, hp, hpc⟩
      exact ⟨p, hp, by rw [hcc, hpc]⟩
  · exact ⟨by decide, by decide, by decide, by decide⟩

theorem create_presentation_stale_cred_rev_id_witness :
    ∃ p, resC9.credentials.getLast? = some p ∧
      (("R1", "9", "delta:R1:0:100", 100) :
        String × String × String × Nat).2.1 = p.2.cred_rev_id :=
  create_presentation_stale_cred_rev_id.1 envC9 recC9 rcC9 resC9 (by decide)
    ("R1", "9", "delta:R1:0:100", 100) (by decide)

/-- Presentation with two identifiers sharing one schema id and one
credential-definition id, for the C6 counterexample. -/
def presC6 : IndyProof :=
  { revealed_attrs := []
    identifiers := [{ schema_id := "S", cred_def_id := "D" },
                    { schema_id := "S", cred_def_id := "D" }] }

def recC6 : ExchangeRecord := { recC4 with presentation := some presC6 }

/-- C6 counterexample: in `verify_presentation`, a presentation whose two
identifiers share one schema id causes two ledger schema fetches for that
id within the single call - the claimed at-most-once dedup fails for
verify_presentation. -/
theorem verify_presentation_no_dedup_counterexample :
    ((verify_presentation ledgerT verifierTrue true recC6).1.countP
      (fun e => decide (e = VEvent.schemaFetch "S"))) = 2 := by decide

/-- C6 amended: `create_presentation` deduplicates schema and
credential-definition ledger fetches by id (duplicate-free fetch traces),
while `verify_presentation` issues exactly one fetch per identifier
occurrence (its fetch traces equal the occurrence lists, duplicates
included). -/
theorem ledger_fetch_dedup_amended :
    (∀ env rec rc result, create_presentation env rec rc = .ok result →
      result.resolve.schemaFetches.Nodup ∧
      result.resolve.credDefFetches.Nodup) ∧
    (∀ ledger ids, (verifySchemas ledger ids).2 = ids) ∧
    (∀ ledger ids, (verifyCredDefs ledger ids).2 = ids) := by
  refine ⟨?_, verifySchemas_trace, verifyCredDefs_trace⟩
  intro env rec rc result hok
  obtain ⟨-, -, hres, -, -, -, -⟩ :=
    create_presentation_ok_inv env rec rc result hok
  have hInv := resolveAll_inv env.ledger result.credentials
  rw [hres]
  exact ⟨hInv.2.1, hInv.2.2.2.1⟩

theorem ledger_fetch_dedup_amended_witness :
    resC9.resolve.schemaFetches.Nodup ∧
    resC9.resolve.credDefFetches.Nodup :=
  ledger_fetch_dedup_amended.1 envC9 recC9 rcC9 resC9 (by decide)

/-- C7: (i) everything revocation-related a run records - registry
definition fetches, delta fetches, revocation-state calls - carries a
truthy rev_reg_id, so a credential with an absent/empty rev_reg_id is
excluded from all revocation processing; (ii) when the stored request has
no request-level window and no referent has a per-referent window, the call
completes normally (no error) with no delta fetch, no delta entry and no
revocation state. -/
theorem create_presentation_revocation_edge_cases :
    (∀ env rec rc result, create_presentation env rec rc = .ok result →
      (∀ r ∈ result.resolve.revRegFetches, r ≠ "") ∧
      (∀ p ∈ result.deltas.deltaFetches, p.1 ≠ "") ∧
      (∀ c ∈ result.states.revStateCalls, c.1 ≠ "")) ∧
    (∀ env rec rc result,
      rec.presentation_request.non_revoked = none →
      (∀ q ∈ result.requested_referents, q.2.non_revoked = none) →
      create_presentation env rec rc = .ok result →
      result.deltas.deltaFetches = [] ∧
      result.deltas.revoc_reg_deltas = [] ∧
      result.states.revStateCalls = [] ∧
      result.states.revocation_states = [] ∧
      result.record.state = .presentationSent) := by
  constructor
  · intro env rec rc result hok
    obtain ⟨-, -, hres, h2, h3, -, -⟩ :=
      create_presentation_ok_inv env rec rc result hok
    have hRInv := resolveAll_inv env.ledger result.credentials
    have hDInv := deltaLoop_inv env.ledger result.credentials
      env.current_timestamp result.requested_referents
      ⟨rec.presentation_request.non_revoked, [], []⟩ result.deltas h2
      ⟨rfl, List.nodup_nil, fun p hp => absurd hp (List.not_mem_nil p),
       fun q hq => absurd hq (List.not_mem_nil q)⟩
    refine ⟨?_, hDInv.2.2.1, ?_⟩
    · rw [hres]
      exact hRInv.2.2.2.2.2.2
    · intro c hc
      rcases statesLoop_calls env.revState result.resolve.revocation_registries
        (result.credentials.getLast?.map Prod.snd)
        result.deltas.revoc_reg_deltas emptyStatesAcc result.states h3 c hc
        with hmem | ⟨c', -, -, q, hq, hqr⟩
      · exact absurd hmem (List.not_mem_nil c)
      · rw [hqr]
        exact hDInv.2.2.2 q hq
  · intro env rec rc result hnone hrefs hok
    obtain ⟨-, hcred, -, h2, h3, hstate, -⟩ :=
      create_presentation_ok_inv env rec rc result hok
    have hfound : ∀ q ∈ result.requested_referents,
        (alFind result.credentials q.2.cred_id).isSome = true := by
      intro q hq
      rw [hcred]
      exact buildCredentials_contains env.get_credential
        result.requested_referents q hq
    have hloop := deltaLoop_no_window env.ledger result.credentials
      env.current_timestamp result.requested_referents
      ⟨rec.presentation_request.non_revoked, [], []⟩ hnone hrefs hfound
    rw [hloop] at h2
    injection h2 with h2'
    have hdf : result.deltas.deltaFetches = [] := by rw [← h2']
    have hde : result.deltas.revoc_reg_deltas = [] := by rw [← h2']
    have hstates : result.states = emptyStatesAcc := by
      rw [hde] at h3
      unfold statesLoop at h3
      injection h3 with h3'
      exact h3'.symm
    exact ⟨hdf, hde, by rw [hstates]; rfl, by rw [hstates]; rfl, hstate⟩

/-- The C9 request without its request-level window: no window anywhere. -/
def reqC7 : IndyProofRequest := { reqC9 with non_revoked := none }

def recC7 : ExchangeRecord := { recC2 with presentation_request := reqC7 }

def resC7 : CPResult := cpResultOrEmpty (create_presentation envC9 recC7 rcC9)

theorem create_presentation_revocation_edge_cases_witness :
    resC7.deltas.deltaFetches = [] ∧
    resC7.deltas.revoc_reg_deltas = [] ∧
    resC7.states.revStateCalls = [] ∧
    resC7.states.revocation_states = [] ∧
    resC7.record.state = .presentationSent :=
  create_presentation_revocation_edge_cases.2 envC9 recC7 rcC9 resC7
    (by decide) (by decide) (by decide)

end Aries
